import Mathlib

/-!
Verification development for the FocusTasks task-list application
(`src/app.js`).

The core under specification is the closure-based task store
(`createStore`), the pure summary function (`summarize`), the escaping
function (`escapeHTML`), title validation (`validateTitle`) and the
submit branch of the delegated event handler (`delegatedHandler`).

Modelling conventions:
* JSON-representable JavaScript values are embedded as the inductive
  `JSValue`.  `JSON.parse (JSON.stringify v)` is the identity on such
  values (no `undefined`, no functions, no cycles), so the persistence
  slot is modelled as holding a parsed `JSValue` (`Slot.value`), being
  absent (`Slot.absent`, `localStorage.getItem` returned `null`), or
  holding a string that `JSON.parse` rejects (`Slot.corrupt`).
  Consequently `deepClone` (a `JSON.parse ∘ JSON.stringify` round trip
  in the source) is the identity in this value semantics.
* Property access `t.id` / `t.done` is `getField`: a lookup on objects,
  `undefined` (`none`) on other values.  In JavaScript, property access
  on `null` throws a `TypeError`; `null` never occurs in collections of
  well-formed task records, and theorems that range over arbitrary raw
  collections carry an explicit `JSValue.null ∉ tasks` hypothesis so
  that they only speak about inputs on which the embedding is faithful.
* Strict equality `t.id === id` where `id` is a string holds exactly
  when `t.id` is that same string (`idEq`).
-/

set_option autoImplicit false

namespace FocusTasks

/-- JSON-representable JavaScript values: `null`, booleans, (rational)
numbers, strings, arrays and objects (ordered field lists, unique keys
after `JSON.parse`). -/
inductive JSValue where
  | null
  | bool (b : Bool)
  | num (q : ℚ)
  | str (s : String)
  | arr (elems : List JSValue)
  | obj (fields : List (String × JSValue))


/-- `Array.isArray` from the source's hydration check. -/
def JSValue.isArray : JSValue → Bool
  | .arr _ => true
  | _ => false

/-- First binding of a key in an object's field list (field lists coming
from `JSON.parse` have unique keys, so first = last). -/
def lookupField : List (String × JSValue) → String → Option JSValue
  | [], _ => none
  | (k, v) :: rest, key => if k = key then some v else lookupField rest key

/-- Property access `v.key`: a field lookup on objects, `undefined`
(`none`) on primitives and arrays.  (On `null`, JavaScript throws; see
the module docstring.) -/
def getField : JSValue → String → Option JSValue
  | .obj fields, key => lookupField fields key
  | _, _ => none

/-- JavaScript truthiness of a possibly-`undefined` value, as used by
`!t.done` in `toggle`. -/
def truthy : Option JSValue → Bool
  | none => false
  | some .null => false
  | some (.bool b) => b
  | some (.num q) => !(q = 0)
  | some (.str s) => !(s = "")
  | some (.arr _) => true
  | some (.obj _) => true

/-- `t.id === id` for a string `id`: strict equality against a string
holds exactly when the other operand is that same string. -/
def idEq (t : JSValue) (id : String) : Bool :=
  match getField t "id" with
  | some (.str s) => s = id
  | _ => false

/-- Replace the binding of `key` in place if present, else append it at
the end — JavaScript object-assignment key ordering. -/
def setField : List (String × JSValue) → String → JSValue → List (String × JSValue)
  | [], key, v => [(key, v)]
  | (k, w) :: rest, key, v =>
      if k = key then (k, v) :: rest else (k, w) :: setField rest key v

/-- `Object.assign(\x7b\x7d, t, \x7b done: b \x7d)` for object `t`.  The
non-object branch is unreachable in the store: `setDone` is only applied
to values whose `id` field is a string, hence to objects. -/
def setDone (t : JSValue) (b : Bool) : JSValue :=
  match t with
  | .obj fields => .obj (setField fields "done" (.bool b))
  | _ => .obj [("done", .bool b)]

/-- Content of the persistence slot for the store's key: absent
(`getItem` returned `null`), present but rejected by `JSON.parse`, or
present and parsed to a `JSValue`. -/
inductive Slot where
  | absent
  | corrupt
  | value (v : JSValue)


/-- Hydration logic of `createStore`: start from `[]`; if the slot has a
value, parse it — on parse failure keep `[]`, on success adopt it only
if `Array.isArray` holds. -/
def hydrate : Slot → List JSValue
  | .absent => []
  | .corrupt => []
  | .value (.arr elems) => elems
  | .value _ => []

/-- `deepClone` from the source: `JSON.parse(JSON.stringify(arr))`,
which is the identity on JSON-representable values. -/
def deepClone (xs : List JSValue) : List JSValue := xs

/-- State of one store instance: the private closure variable `tasks`
together with the persistence slot addressed by its `storageKey`. -/
structure Store where
  tasks : List JSValue
  slot : Slot


/-- `createStore(storageKey)`: hydrate `tasks` from the slot; the slot
itself is untouched by construction. -/
def createStore (s : Slot) : Store :=
  { tasks := hydrate s, slot := s }

/-- `persist(next)`: assign `tasks = next`, write
`JSON.stringify(tasks)` to the slot, and return `deepClone(tasks)`. -/
def persist (_st : Store) (next : List JSValue) : List JSValue × Store :=
  (deepClone next, { tasks := next, slot := .value (.arr next) })

/-- `add(item)`: append `item` (spread into a fresh array) and persist. -/
def Store.add (st : Store) (item : JSValue) : List JSValue × Store :=
  persist st (st.tasks ++ [item])

/-- `toggle(id)`: map over `tasks`, replacing each `t` with
`Object.assign(\x7b\x7d, t, \x7b done: !t.done \x7d)` when
`t.id === id`, and persist. -/
def Store.toggle (st : Store) (id : String) : List JSValue × Store :=
  persist st (st.tasks.map fun t =>
    if idEq t id then setDone t (!truthy (getField t "done")) else t)

/-- `remove(id)`: keep exactly the `t` with `t.id !== id`, and persist. -/
def Store.remove (st : Store) (id : String) : List JSValue × Store :=
  persist st (st.tasks.filter fun t => !idEq t id)

/-- `list()`: return `deepClone(tasks)`, no side effect. -/
def Store.list (st : Store) : List JSValue :=
  deepClone st.tasks

/-- One mutation of the store API. -/
inductive Op where
  | add (item : JSValue)
  | toggle (id : String)
  | remove (id : String)

/-- Run one mutation, keeping the new store state. -/
def applyOp (st : Store) : Op → Store
  | .add item => (st.add item).2
  | .toggle id => (st.toggle id).2
  | .remove id => (st.remove id).2

/-- Run a sequence of mutations left to right. -/
def runOps (st : Store) (ops : List Op) : Store :=
  ops.foldl applyOp st

/-- Mutations on whose JavaScript execution the embedding is faithful:
adding `null` is harmless in itself, but a later `toggle`/`remove` on a
collection containing `null` would throw in JavaScript, so runs exclude
`null` items. -/
def OpOK : Op → Prop
  | .add item => item ≠ JSValue.null
  | .toggle _ => True
  | .remove _ => True

/-! ### The typed task layer

The spec's data model (§3): a task record has a string `id`, a string
`title` and a boolean `done`.  The store methods below are the same
source lines as the raw `Store` ones, read at the record type the data
model assigns; `encodeTask` is the JSON object such a record becomes in
the persistence slot (`\x7bid, title, done\x7d` field order, as built by
the submit handler and preserved by `Object.assign`). -/

/-- A task record per the data model: `id`, `title`, `done`. -/
structure Task where
  id : String
  title : String
  done : Bool
deriving DecidableEq

/-- The JSON object a task record serializes to. -/
def encodeTask (t : Task) : JSValue :=
  .obj [("id", .str t.id), ("title", .str t.title), ("done", .bool t.done)]

/-- Store state at the typed layer. -/
structure TStore where
  tasks : List Task
  slot : Slot

/-- `persist(next)` at the typed layer: the slot receives the serialized
collection; the returned deep clone is the collection itself. -/
def tpersist (_st : TStore) (next : List Task) : List Task × TStore :=
  (next, { tasks := next, slot := .value (.arr (next.map encodeTask)) })

/-- `add(item)` on task records: append and persist. -/
def TStore.add (st : TStore) (item : Task) : List Task × TStore :=
  tpersist st (st.tasks ++ [item])

/-- `toggle(id)` on task records: `Object.assign(\x7b\x7d, t,
\x7b done: !t.done \x7d)` on a record with boolean `done` yields the
record with `done` negated; every `t.id === id` match is replaced. -/
def TStore.toggle (st : TStore) (id : String) : List Task × TStore :=
  tpersist st (st.tasks.map fun t =>
    if t.id = id then { t with done := !t.done } else t)

/-- `remove(id)` on task records: keep the records with `t.id !== id`. -/
def TStore.remove (st : TStore) (id : String) : List Task × TStore :=
  tpersist st (st.tasks.filter fun t => t.id != id)

/-- `list()` on task records. -/
def TStore.list (st : TStore) : List Task :=
  st.tasks

/-- Number of records that `toggle(id)` changes: positions where the
output record differs from the input record. -/
def toggleChangedCount (tasks : List Task) (id : String) : ℕ :=
  ((tasks.zip ((TStore.mk tasks Slot.absent).toggle id).2.tasks).filter
    (fun p => p.1 != p.2)).length

/-! ### Summary -/

/-- Result shape of `summarize`: `\x7b active, done, pct \x7d`. -/
structure Summary where
  active : ℕ
  done : ℕ
  pct : ℚ
deriving DecidableEq

/-- `Math.round` on the (exact rational) values produced by `summarize`:
half-up rounding, `⌊x + 1/2⌋`. -/
def jsRound (x : ℚ) : ℤ :=
  ⌊x + 1/2⌋

/-- `summarize(tasks)`: `done` records counted by truthiness of the
boolean `done` field, `active = tasks.length - done`, and
`pct = 0` for an empty collection, else
`Math.round((done / tasks.length) * 1000) / 10` (one decimal place). -/
def summarize (tasks : List Task) : Summary :=
  let done := (tasks.filter fun t => t.done).length
  let active := tasks.length - done
  let pct : ℚ :=
    if tasks.length = 0 then 0
    else (jsRound (((done : ℚ) / (tasks.length : ℚ)) * 1000) : ℚ) / 10
  { active := active, done := done, pct := pct }

/-! ### Escaping

`escapeHTML` chains five global single-character `String.replace`
calls.  A global replace of one character by a string is, at the level
of character sequences, `List.flatMap` of a per-character substitution;
we model strings as `List Char` (the escaped characters are ASCII, so
UTF-16 code-unit subtleties do not arise). -/

/-- Global replacement of the single character `c` by `r`:
`.replace(/c/g, r)`. -/
def replaceAll (c : Char) (r : List Char) (s : List Char) : List Char :=
  s.flatMap fun x => if x = c then r else [x]

/-- `escapeHTML(str)`: replace `&`, then `<`, `>`, `"`, `'`, each
globally, by its entity form. -/
def escapeHTML (s : List Char) : List Char :=
  replaceAll '\'' "&#39;".data
    (replaceAll '"' "&quot;".data
      (replaceAll '>' "&gt;".data
        (replaceAll '<' "&lt;".data
          (replaceAll '&' "&amp;".data s))))

/-- Per-character specification of the five escapes: what one input
character contributes to the output. -/
def escChar (c : Char) : List Char :=
  if c = '&' then "&amp;".data
  else if c = '<' then "&lt;".data
  else if c = '>' then "&gt;".data
  else if c = '"' then "&quot;".data
  else if c = '\'' then "&#39;".data
  else [c]

/-! ### Validation and the submit branch of the delegated handler -/

/-- JavaScript `String.prototype.trim` (an external primitive): strip
leading and trailing whitespace.  (JavaScript's whitespace class and
`Char.isWhitespace` agree on the characters that occur in practice;
exotic code points such as U+FEFF are not distinguished here.) -/
def jsTrim (s : String) : String :=
  String.mk (((s.data.dropWhile Char.isWhitespace).reverse.dropWhile
    Char.isWhitespace).reverse)

/-- `validateTitle(raw)`: reject an empty string (`!raw`) and a string
whose trim has length zero. -/
def validateTitle (raw : String) : Bool :=
  if raw = "" then false
  else if (jsTrim raw).length = 0 then false
  else true

/-- `showError(msg)`: the error box state after the call — hidden and
empty for `msg = ''` (modelled `none`), else visible with `msg`. -/
def showError (msg : String) : Option String :=
  if msg = "" then none else some msg

/-- UI-facing state touched by the submit branch of
`delegatedHandler`: the store, the text of `taskInput`, and the error
box (`none` = hidden). -/
structure AppState where
  store : TStore
  input : String
  error : Option String

/-- Submit branch of `delegatedHandler`: read `taskInput.value || ''`;
if `validateTitle` fails, show the error and stop; otherwise clear the
error, `add(\x7bid, title: title.trim(), done: false\x7d)` with a fresh
`id` (passed here as a parameter in place of `makeId()`), and clear the
input. -/
def delegatedHandlerSubmit (id : String) (st : AppState) : AppState :=
  let title := st.input
  if !validateTitle title then
    { st with error := showError "Please enter a non-empty task title." }
  else
    { store := (st.store.add { id := id, title := jsTrim title, done := false }).2
      input := ""
      error := showError "" }

/-! ## Helper lemmas -/

/-- Mapping a function that fixes every element of a list is the
identity on that list. -/
theorem map_id_of_mem {α : Type} (l : List α) (f : α → α)
    (h : ∀ x ∈ l, f x = x) : l.map f = l := by
  induction l with
  | nil => rfl
  | cons x xs ih =>
      simp only [List.map_cons, h x (List.mem_cons_self x xs)]
      rw [ih fun y hy => h y (List.mem_cons_of_mem x hy)]

/-- A string has length zero exactly when it is empty. -/
theorem string_length_zero_iff (s : String) : s.length = 0 ↔ s = "" := by
  cases s with
  | mk data => simp [String.length, String.ext_iff, List.length_eq_zero]

/-! ## Claims -/

/-- C4: for every content of the persistence slot at construction time —
absent, unparseable, or parseable but not a sequence — the store
initializes with an empty collection; `createStore` is a total function
of the slot content, so construction never fails. -/
theorem createStore_empty_on_bad_slot :
    (createStore Slot.absent).tasks = []
    ∧ (createStore Slot.corrupt).tasks = []
    ∧ ∀ v : JSValue, v.isArray = false →
        (createStore (Slot.value v)).tasks = [] := by
  refine ⟨rfl, rfl, ?_⟩
  intro v hv
  cases v with
  | arr elems => simp [JSValue.isArray] at hv
  | null => rfl
  | bool b => rfl
  | num q => rfl
  | str s => rfl
  | obj fields => rfl

/-- Witness for C4 at a concrete non-array slot value. -/
theorem createStore_empty_on_bad_slot_witness :
    (createStore (Slot.value (JSValue.num 7))).tasks = [] :=
  createStore_empty_on_bad_slot.2.2 (JSValue.num 7) rfl

/-- C1: `toggle(id)` keeps the length, inverts `done` exactly on the
records whose `id` matches and leaves every other record structurally
unchanged; on no match the collection is unchanged, and in every case
the result is re-persisted to the slot and returned. -/
theorem toggle_spec (st : TStore) (id : String) :
    ((st.toggle id).2.tasks
        = st.tasks.map fun t => if t.id = id then { t with done := !t.done } else t)
    ∧ (st.toggle id).2.tasks.length = st.tasks.length
    ∧ ((∀ t ∈ st.tasks, t.id ≠ id) → (st.toggle id).2.tasks = st.tasks)
    ∧ (st.toggle id).2.slot
        = Slot.value (JSValue.arr ((st.toggle id).2.tasks.map encodeTask))
    ∧ (st.toggle id).1 = (st.toggle id).2.tasks := by
  refine ⟨rfl, by simp [TStore.toggle, tpersist], ?_, rfl, rfl⟩
  intro h
  show st.tasks.map _ = st.tasks
  exact map_id_of_mem _ _ fun t ht => if_neg (h t ht)

/-- Witness for C1: toggling an id absent from a concrete store leaves
the collection unchanged. -/
theorem toggle_spec_witness :
    ((TStore.mk [Task.mk "a" "x" false] Slot.absent).toggle "z").2.tasks
      = [Task.mk "a" "x" false] :=
  (toggle_spec (TStore.mk [Task.mk "a" "x" false] Slot.absent) "z").2.2.1
    (by decide)

/-- C5: `remove(id)` keeps exactly the records whose `id` differs, in
their original relative order (the result is a sublist); removing an
absent id leaves `list()` unchanged. -/
theorem remove_spec (st : TStore) (id : String) :
    ((st.remove id).2.tasks = st.tasks.filter fun t => t.id != id)
    ∧ List.Sublist (st.remove id).2.tasks st.tasks
    ∧ ((∀ t ∈ st.tasks, t.id ≠ id) → (st.remove id).2.list = st.list)
    ∧ (st.remove id).2.slot
        = Slot.value (JSValue.arr ((st.remove id).2.tasks.map encodeTask))
    ∧ (st.remove id).1 = (st.remove id).2.tasks := by
  refine ⟨rfl, List.filter_sublist st.tasks, ?_, rfl, rfl⟩
  intro h
  show (st.tasks.filter fun t => t.id != id) = st.tasks
  exact List.filter_eq_self.mpr fun t ht => by simpa using h t ht

/-- Witness for C5: removing an id absent from a concrete store leaves
`list()` unchanged. -/
theorem remove_spec_witness :
    ((TStore.mk [Task.mk "a" "x" false] Slot.absent).remove "z").2.list
      = (TStore.mk [Task.mk "a" "x" false] Slot.absent).list :=
  (remove_spec (TStore.mk [Task.mk "a" "x" false] Slot.absent) "z").2.2.1
    (by decide)

/-- Run a sequence of `add` calls, keeping the store state. -/
def runAdds (st : TStore) (items : List Task) : TStore :=
  items.foldl (fun s it => (s.add it).2) st

/-- After a sequence of `add` calls the collection is the initial one
with the items appended in order. -/
theorem runAdds_tasks (items : List Task) : ∀ st : TStore,
    (runAdds st items).tasks = st.tasks ++ items := by
  induction items with
  | nil => intro st; simp [runAdds]
  | cons it its ih =>
      intro st
      show (runAdds ((st.add it).2) its).tasks = _
      rw [ih]
      simp [TStore.add, tpersist]

/-- C6: adding records with pairwise distinct ids to an empty store
leaves `list()` without duplicate ids. -/
theorem add_preserves_unique_ids (slot : Slot) (items : List Task)
    (h : (items.map Task.id).Nodup) :
    ((runAdds (TStore.mk [] slot) items).list.map Task.id).Nodup := by
  show ((runAdds (TStore.mk [] slot) items).tasks.map Task.id).Nodup
  rw [runAdds_tasks]
  simpa using h

/-- Witness for C6 at two concrete records with distinct ids. -/
theorem add_preserves_unique_ids_witness :
    ((runAdds (TStore.mk [] Slot.absent)
        [Task.mk "a" "x" false, Task.mk "b" "y" false]).list.map Task.id).Nodup :=
  add_preserves_unique_ids Slot.absent
    [Task.mk "a" "x" false, Task.mk "b" "y" false] (by decide)

/-- Negating `done` always produces a different record. -/
theorem toggle_changes_record (u : Task) :
    (u != { u with done := !u.done }) = true := by
  cases u with
  | mk i ti d => cases d <;> simp [bne_iff_ne]

/-- One step of `toggleChangedCount`: the head contributes `1` exactly
when its id matches. -/
theorem toggleChangedCount_cons (t : Task) (ts : List Task) (id : String) :
    toggleChangedCount (t :: ts) id
      = (if t.id = id then 1 else 0) + toggleChangedCount ts id := by
  unfold toggleChangedCount TStore.toggle tpersist
  simp only [List.map_cons, List.zip_cons_cons, List.filter_cons]
  by_cases h : t.id = id
  · simp [if_pos h, toggle_changes_record t]
    omega
  · simp [h]

/-- If no record's id matches, `toggle(id)` changes no record. -/
theorem toggleChangedCount_eq_zero (id : String) (tasks : List Task)
    (h : ∀ t ∈ tasks, t.id ≠ id) : toggleChangedCount tasks id = 0 := by
  induction tasks with
  | nil => rfl
  | cons t ts ih =>
      rw [toggleChangedCount_cons, if_neg (h t (List.mem_cons_self t ts)),
        ih fun u hu => h u (List.mem_cons_of_mem t hu)]

/-- C7 counterexample: under duplicate ids, `toggle` maps over every
matching record, so with two records sharing an id it changes two
records — not at most one. -/
theorem toggle_two_changes_on_duplicate_ids :
    ¬ toggleChangedCount [Task.mk "a" "t1" false, Task.mk "a" "t2" false] "a" ≤ 1 := by
  decide

/-- C7 (amended): `toggle(id)` replaces every record whose id matches,
so it affects at most one record exactly when the collection's ids are
pairwise distinct — the §3 uniqueness invariant. -/
theorem toggle_affects_at_most_one_of_nodup (tasks : List Task) (id : String)
    (h : (tasks.map Task.id).Nodup) : toggleChangedCount tasks id ≤ 1 := by
  induction tasks with
  | nil => exact Nat.zero_le 1
  | cons t ts ih =>
      simp only [List.map_cons, List.nodup_cons, List.mem_map] at h
      obtain ⟨hnotin, hnd⟩ := h
      rw [toggleChangedCount_cons]
      by_cases ht : t.id = id
      · have hz : toggleChangedCount ts id = 0 :=
          toggleChangedCount_eq_zero id ts fun u hu hid =>
            hnotin ⟨u, hu, by rw [hid, ht]⟩
        rw [if_pos ht, hz]
      · rw [if_neg ht, Nat.zero_add]
        exact ih hnd

/-- Witness for C7 (amended) at a concrete duplicate-free store. -/
theorem toggle_affects_at_most_one_of_nodup_witness :
    toggleChangedCount [Task.mk "a" "x" false, Task.mk "b" "y" true] "a" ≤ 1 :=
  toggle_affects_at_most_one_of_nodup
    [Task.mk "a" "x" false, Task.mk "b" "y" true] "a" (by decide)

/-- The records that are not done are the whole collection minus the
done ones. -/
theorem length_filter_not_done (tasks : List Task) :
    (tasks.filter fun t => !t.done).length
      = tasks.length - (tasks.filter fun t => t.done).length := by
  induction tasks with
  | nil => rfl
  | cons t ts ih =>
      have hle := List.length_filter_le (fun t : Task => t.done) ts
      by_cases h : t.done <;> (simp [List.filter, h, ih]; try omega)

/-- C3: `summarize` counts active records (`done = false`) and done
records (`done = true`); `pct` is `0` on an empty collection and
otherwise `Math.round(done / total * 1000) / 10` with half-up rounding;
3 tasks with 1 done yield `⟨2, 1, 33.3⟩`, and the empty collection
yields `⟨0, 0, 0⟩`. -/
theorem summarize_spec (tasks : List Task) :
    (summarize tasks).active = (tasks.filter fun t => !t.done).length
    ∧ (summarize tasks).done = (tasks.filter fun t => t.done).length
    ∧ (summarize tasks).pct =
        (if tasks.length = 0 then (0 : ℚ)
         else (jsRound ((((tasks.filter fun t => t.done).length : ℚ)
            / (tasks.length : ℚ)) * 1000) : ℚ) / 10)
    ∧ (tasks.length = 3 → (tasks.filter fun t => t.done).length = 1 →
        summarize tasks = Summary.mk 2 1 (333 / 10))
    ∧ summarize [] = Summary.mk 0 0 0 := by
  refine ⟨?_, rfl, rfl, ?_, rfl⟩
  · show tasks.length - _ = _
    rw [length_filter_not_done]
  · intro h3 h1
    show Summary.mk (tasks.length - _) _ _ = _
    rw [h3, h1]
    simp only [Summary.mk.injEq]
    refine ⟨trivial, trivial, ?_⟩
    norm_num [jsRound]

/-- Witness for C3: a concrete 3-task collection with 1 done yields
`⟨2, 1, 33.3⟩`. -/
theorem summarize_spec_witness :
    summarize [Task.mk "a" "x" true, Task.mk "b" "y" false,
      Task.mk "c" "z" false] = Summary.mk 2 1 (333 / 10) :=
  (summarize_spec [Task.mk "a" "x" true, Task.mk "b" "y" false,
    Task.mk "c" "z" false]).2.2.2.1 (by decide) (by decide)

/-- Every store reachable by running mutations satisfies the hydration
invariant: re-parsing the slot yields the current collection. -/
theorem runOps_hydrate (ops : List Op) : ∀ st : Store,
    hydrate st.slot = st.tasks →
    hydrate (runOps st ops).slot = (runOps st ops).tasks := by
  induction ops with
  | nil => intro st h; exact h
  | cons op ops ih =>
      intro st _
      show hydrate (runOps (applyOp st op) ops).slot = _
      apply ih
      cases op <;> rfl

/-- C2: every mutation writes the complete current collection to the
slot, so a new store constructed against the same slot afterwards
reproduces a collection equal to the first store's current collection.
The hypotheses restrict the run to collections without `null` records,
on which the embedding of property access is faithful (see the module
docstring); the proof does not otherwise use them. -/
theorem persistence_roundtrip (slot : Slot) (ops : List Op)
    (_hnull : JSValue.null ∉ (createStore slot).tasks)
    (_hok : ∀ op ∈ ops, OpOK op) :
    (∀ (st : Store) (op : Op),
        (applyOp st op).slot = Slot.value (JSValue.arr (applyOp st op).tasks))
    ∧ (createStore (runOps (createStore slot) ops).slot).tasks
        = (runOps (createStore slot) ops).tasks := by
  refine ⟨fun st op => by cases op <;> rfl, ?_⟩
  exact runOps_hydrate ops (createStore slot) rfl

/-- Witness for C2: one concrete `add` against an absent slot, then a
fresh store against the written slot, reproduces the collection. -/
theorem persistence_roundtrip_witness :
    (createStore (runOps (createStore Slot.absent)
        [Op.add (JSValue.obj [("id", JSValue.str "a")])]).slot).tasks
      = (runOps (createStore Slot.absent)
        [Op.add (JSValue.obj [("id", JSValue.str "a")])]).tasks :=
  (persistence_roundtrip Slot.absent [Op.add (JSValue.obj [("id", JSValue.str "a")])]
    (by simp [createStore, hydrate])
    (by intro op hop
        simp only [List.mem_singleton] at hop
        subst hop
        simp [OpOK])).2

/-- C10: hydration adopts any decoded sequence wholesale — entries that
are not task-shaped enter the collection unchanged and are returned by
`list()`; `toggle` on a matching record sets `done` to the negation of
the truthiness of its `done` field, so a missing `done` becomes `true`
and a truthy non-boolean `done` becomes `false`. -/
theorem lenient_hydration :
    (∀ xs : List JSValue,
        (createStore (Slot.value (JSValue.arr xs))).tasks = xs
        ∧ (createStore (Slot.value (JSValue.arr xs))).list = xs)
    ∧ (∀ st : Store, JSValue.null ∉ st.tasks → ∀ id : String,
        (st.toggle id).2.tasks = st.tasks.map fun t =>
          if idEq t id then setDone t (!truthy (getField t "done")) else t)
    ∧ ((createStore (Slot.value (JSValue.arr
          [JSValue.obj [("id", JSValue.str "a")],
           JSValue.obj [("id", JSValue.str "b"), ("done", JSValue.str "yes")],
           JSValue.num 7]))).toggle "a").2.tasks
        = [JSValue.obj [("id", JSValue.str "a"), ("done", JSValue.bool true)],
           JSValue.obj [("id", JSValue.str "b"), ("done", JSValue.str "yes")],
           JSValue.num 7]
    ∧ ((createStore (Slot.value (JSValue.arr
          [JSValue.obj [("id", JSValue.str "b"), ("done", JSValue.str "yes")],
           JSValue.num 7]))).toggle "b").2.tasks
        = [JSValue.obj [("id", JSValue.str "b"), ("done", JSValue.bool false)],
           JSValue.num 7] :=
  ⟨fun _ => ⟨rfl, rfl⟩, fun _ _ _ => rfl, rfl, rfl⟩

/-- Witness for C10: toggling a non-object entry leaves it unchanged. -/
theorem lenient_hydration_witness :
    ((Store.mk [JSValue.num 1] Slot.absent).toggle "z").2.tasks
      = [JSValue.num 1] := by
  have h := lenient_hydration.2.1 (Store.mk [JSValue.num 1] Slot.absent)
    (by simp) "z"
  exact h.trans rfl


/-- A global single-character replacement distributes over a
per-character expansion. -/
theorem replaceAll_flatMap (a : Char) (r : List Char) (f : Char → List Char)
    (s : List Char) :
    replaceAll a r (s.flatMap f) = s.flatMap fun c => replaceAll a r (f c) := by
  simp [replaceAll, List.flatMap_assoc]

/-- The chained replacements act on each input character independently,
producing exactly its `escChar` expansion. -/
theorem escapeHTML_eq_flatMap (s : List Char) :
    escapeHTML s = s.flatMap escChar := by
  unfold escapeHTML
  rw [show replaceAll '&' "&amp;".data s
        = s.flatMap fun c => if c = '&' then "&amp;".data else [c] from rfl,
    replaceAll_flatMap, replaceAll_flatMap, replaceAll_flatMap, replaceAll_flatMap]
  congr 1
  funext c
  by_cases h1 : c = '&'
  · subst h1; decide
  by_cases h2 : c = '<'
  · subst h2; decide
  by_cases h3 : c = '>'
  · subst h3; decide
  by_cases h4 : c = '"'
  · subst h4; decide
  by_cases h5 : c = '\''
  · subst h5; decide
  simp [escChar, replaceAll, h1, h2, h3, h4, h5]

/-- No expansion of a single character contains a raw `<`, `>`, `"` or
`'`. -/
theorem escChar_no_specials (c : Char) :
    '<' ∉ escChar c ∧ '>' ∉ escChar c ∧ '"' ∉ escChar c ∧ '\'' ∉ escChar c := by
  by_cases h1 : c = '&'
  · subst h1; decide
  by_cases h2 : c = '<'
  · subst h2; decide
  by_cases h3 : c = '>'
  · subst h3; decide
  by_cases h4 : c = '"'
  · subst h4; decide
  by_cases h5 : c = '\''
  · subst h5; decide
  refine ⟨?_, ?_, ?_, ?_⟩ <;>
    (simp [escChar, h1, h2, h3, h4, h5]
     intro hc)
  · exact h2 hc.symm
  · exact h3 hc.symm
  · exact h4 hc.symm
  · exact h5 hc.symm

/-- C9: `escapeHTML` expands every occurrence of each of `& < > " '` to
its entity form and leaves every other character unchanged (the output
is exactly the concatenation of the per-character expansions), so the
output contains no raw `<`, `>`, `"` or `'` at all, and `&` only as the
head of an inserted entity. -/
theorem escapeHTML_spec (s : List Char) :
    escapeHTML s = s.flatMap escChar
    ∧ '<' ∉ escapeHTML s ∧ '>' ∉ escapeHTML s
    ∧ '"' ∉ escapeHTML s ∧ '\'' ∉ escapeHTML s := by
  refine ⟨escapeHTML_eq_flatMap s, ?_, ?_, ?_, ?_⟩ <;>
    (rw [escapeHTML_eq_flatMap s]
     intro hmem
     rw [List.mem_flatMap] at hmem
     obtain ⟨c, _, hc⟩ := hmem)
  · exact (escChar_no_specials c).1 hc
  · exact (escChar_no_specials c).2.1 hc
  · exact (escChar_no_specials c).2.2.1 hc
  · exact (escChar_no_specials c).2.2.2 hc

/-- `validateTitle` rejects exactly the titles that are blank after
trimming. -/
theorem validateTitle_eq_false_iff (raw : String) :
    validateTitle raw = false ↔ jsTrim raw = "" := by
  unfold validateTitle
  by_cases h0 : raw = ""
  · subst h0
    simp [show jsTrim "" = "" from rfl]
  · rw [if_neg h0]
    by_cases hl : (jsTrim raw).length = 0
    · simp [hl, (string_length_zero_iff (jsTrim raw)).mp hl]
    · simp [hl]
      exact fun he => hl ((string_length_zero_iff (jsTrim raw)).mpr he)

/-- C8: on a blank input (empty or all-whitespace after trimming) the
submit handler surfaces the validation error and leaves the store and
the input field untouched; on a non-blank input it clears the error,
adds `\x7bid, title: trimmed, done: false\x7d` and clears the input. -/
theorem submit_spec (st : AppState) (id : String) :
    ((delegatedHandlerSubmit id st).store.tasks =
        if jsTrim st.input = "" then st.store.tasks
        else st.store.tasks ++ [Task.mk id (jsTrim st.input) false])
    ∧ ((delegatedHandlerSubmit id st).store.slot =
        if jsTrim st.input = "" then st.store.slot
        else Slot.value (JSValue.arr
          ((delegatedHandlerSubmit id st).store.tasks.map encodeTask)))
    ∧ ((delegatedHandlerSubmit id st).input =
        if jsTrim st.input = "" then st.input else "")
    ∧ ((delegatedHandlerSubmit id st).error =
        if jsTrim st.input = "" then some "Please enter a non-empty task title."
        else none) := by
  by_cases hb : jsTrim st.input = ""
  · have hv : validateTitle st.input = false :=
      (validateTitle_eq_false_iff st.input).mpr hb
    simp [delegatedHandlerSubmit, hv, hb, showError]
  · have hv : validateTitle st.input = true := by
      cases h : validateTitle st.input
      · exact absurd ((validateTitle_eq_false_iff st.input).mp h) hb
      · rfl
    simp [delegatedHandlerSubmit, hv, hb, showError, TStore.add, tpersist]

end FocusTasks